import Mathlib

/-
Verification of the meteorite_bot repository (bot.py, ozon.py, config.py).
The Python source is shallowly embedded: pure helpers become Lean functions,
the stateful poll cycle becomes an explicit state-passing step function,
machine integers are Int (Python integers are unbounded, so no modular
arithmetic is needed), and fallible code returns Option / Except.
-/

/-
RawVal models a JSON field value as it may appear in a vendor price block:
absent or null (vnone), an integer number (vint), or a string (vstr).
The source coerces with _to_int; fractional numbers and fractional numeric
strings go through binary floating point in the source
(int(round(float(str(v).replace(",", "."))))) and are outside this model:
no claim exercises them, and every concrete input used below is an integer
or an absent field, where the embedding agrees with the source exactly.
-/
inductive RawVal where
  | vnone : RawVal
  | vint (n : Int) : RawVal
  | vstr (s : String) : RawVal
deriving DecidableEq, Repr

/- Models str.replace(",", ".") on the characters of the string. -/
def commaToDot (s : String) : String :=
  String.mk (s.data.map (fun c => if c = ',' then '.' else c))

/-
_to_int from bot.py lines 63-69: None maps to 0, an integer maps to itself
(int(round(n)) = n for integral n), a string is parsed as an integer after
replacing commas with dots, and any parse failure maps to 0.
-/
def _to_int : RawVal → Int
  | RawVal.vnone => 0
  | RawVal.vint n => n
  | RawVal.vstr s => ((commaToDot s).toInt?).getD 0

/- The nested price block of a vendor price record: bot.py reads
price.marketing_price, price.price, price.old_price. -/
structure PriceBlock where
  marketing_price : RawVal
  price : RawVal
  old_price : RawVal
deriving DecidableEq, Repr

def emptyPriceBlock : PriceBlock := ⟨RawVal.vnone, RawVal.vnone, RawVal.vnone⟩

/- One item of a vendor response. price = none models both an absent
"price" key and a non-dict value there: bot.py line 54 replaces either
with the empty dict. -/
structure Item where
  offer_id : Option String
  product_id : Option Int
  price : Option PriceBlock
deriving DecidableEq, Repr

def priceBlockOf (it : Item) : PriceBlock := (it.price).getD emptyPriceBlock

/-
Python round() rounds half to even. The source computes
int(round(discount * 100 / old_price)) with true (float) division; we model
this as rounding the exact rational a/b half to even, expressed in integer
arithmetic so it is kernel-evaluable: after flipping signs so the divisor is
positive, f is the floor of the quotient and r the nonnegative remainder,
and the fractional part r/bb is compared with 1/2 by comparing 2*r with bb.
For the integer ratios the claims exercise, the correctly rounded double of
the quotient rounds to the same integer as the exact rational.
-/
def roundDivHalfEven (a b : Int) : Int :=
  let aa := if b < 0 then -a else a
  let bb := if b < 0 then -b else b
  let f := Int.fdiv aa bb
  let r := Int.fmod aa bb
  if 2 * r < bb then f
  else if bb < 2 * r then f + 1
  else if f % 2 = 0 then f else f + 1

/-
pick_buyer_price from bot.py lines 48-61. Returns
(price, old_price, discount_percent). Python truthiness of an int is
being nonzero, hence the ≠ 0 tests.
-/
def pick_buyer_price (item : Item) : Int × Int × Int :=
  let p := priceBlockOf item
  let marketing_price := _to_int p.marketing_price
  let regular_price := _to_int p.price
  let old_price := _to_int p.old_price
  let price := if 0 < marketing_price then marketing_price else regular_price
  let discount := if old_price ≠ 0 ∧ price ≠ 0 then max (old_price - price) 0 else 0
  let discount_pct :=
    if old_price ≠ 0 then roundDivHalfEven (discount * 100) old_price
    else 0
  (price, old_price, discount_pct)

/- The newline the chunker appends after every line (bot.py line 78). -/
def nl : String := "\n"

/-
chunks from bot.py lines 71-81, with the Telegram limit passed explicitly
(the source default is max_len = 4000). The loop body: when the current
buffer plus the next line and its newline would overflow, flush the buffer
(even when it is empty) and reset it; then always append the line and a
newline to the buffer. A nonempty buffer is flushed at the end.
-/
def chunksGo (maxLen : Nat) : List String → List String → String → List String
  | [], blocks, cur => if cur = "" then blocks else blocks ++ [cur]
  | line :: rest, blocks, cur =>
    if cur.length + line.length + 1 > maxLen then
      chunksGo maxLen rest (blocks ++ [cur]) (line ++ nl)
    else
      chunksGo maxLen rest blocks (cur ++ (line ++ nl))

def chunks (lines : List String) (maxLen : Nat) : List String :=
  chunksGo maxLen lines [] ""

/- Concatenation of a list of strings, used to state the chunker
round-trip property. -/
def concatAll : List String → String
  | [] => ""
  | s :: rest => s ++ concatAll rest

/-
human_health from bot.py lines 83-100, as a function of the globals it
reads. Timestamps are modelled as Int seconds; timedelta(minutes=m) is
m * 60 seconds. The second component models the "last successful cycle"
text: int((now - last_cycle_at).total_seconds() // 60) minutes, i.e. floor
division, and none (None in the source) yields the "never" text.
-/
def human_health (now last_activity : Int) (heartbeatMinutes : Int)
    (last_cycle_at : Option Int) : String × String :=
  let silence_td := now - last_activity
  let threshold := heartbeatMinutes * 60
  let hb :=
    if silence_td ≤ threshold then "OK"
    else if silence_td ≤ threshold + heartbeatMinutes * 60 then "WARN"
    else "SILENT"
  let last_text :=
    match last_cycle_at with
    | some t => toString (Int.fdiv (now - t) 60) ++ " min ago"
    | none => "never"
  (hb, last_text)

/- str(it.get("offer_id") or ""): None and the empty string both collapse
to the empty string, and a present string is unchanged. -/
def offerKey (it : Item) : String := (it.offer_id).getD ""

/- Python dict assignment d[k] = v on a map modelled as a lookup
function. -/
def dictSet (f : String → Option Int) (k : String) (v : Int) :
    String → Option Int :=
  fun x => if x = k then some v else f x

/-
State of the change-detection loop of one poll cycle
(bot.py lines 302-314): the previous_prices dict and the change alerts
emitted so far in this cycle, as (offer, old, new) triples. The per-admin
send loop (lines 309-313) catches delivery failures per admin and does not
affect detection state, so an emitted event models one constructed alert
text.
-/
structure ChangeState where
  previous_prices : String → Option Int
  events : List (String × Int × Int)

/-
The body of the for-loop over price items, bot.py lines 302-314:
look up the prior price for the offer key, emit a change alert exactly
when a prior price exists and differs from the fresh price, and
unconditionally overwrite the stored price.
-/
def processItem (st : ChangeState) (it : Item) : ChangeState :=
  let offer := offerKey it
  let price := (pick_buyer_price it).1
  let old := st.previous_prices offer
  let events :=
    match old with
    | some o => if o ≠ price then st.events ++ [(offer, o, price)] else st.events
    | none => st.events
  ⟨dictSet st.previous_prices offer price, events⟩

def processItems (st : ChangeState) (items : List Item) : ChangeState :=
  items.foldl processItem st

/- filter_to_monitored from bot.py lines 112-125, with the two environment
allow-lists passed explicitly. -/
def filter_to_monitored (monitorOffers : List String) (monitorProducts : List Int)
    (items : List Item) : List Item :=
  if monitorOffers.isEmpty && monitorProducts.isEmpty then items
  else
    items.filter (fun it =>
      (!monitorOffers.isEmpty && monitorOffers.contains (offerKey it)) ||
      (!monitorProducts.isEmpty &&
        (match it.product_id with
         | some pid => monitorProducts.contains pid
         | none => false)))

/- One response of the POST /v3/product/list endpoint as bot.py consumes
it: the HTTP status and the parsed result.items list (with a null or
missing list already collapsed to [] as by the "or []" in line 150). -/
structure ListResponse where
  status : Nat
  items : List Item
deriving DecidableEq, Repr

/-
get_ozon_products from bot.py lines 128-158. The network is modelled as
the list of successive responses the paginated while-loop would receive;
the function consumes one response per iteration. The result is none when
the supplied response prefix is exhausted before the loop exits (the
source would keep requesting), and otherwise some (items, touched) where
touched records whether touch_alive("ozon_products") ran (line 157): a
non-200 status returns [] before reaching it, both loop exits reach it.
-/
def getOzonProductsGo (limit : Nat) : List ListResponse → List Item →
    Option (List Item × Bool)
  | [], _ => none
  | r :: rest, all_items =>
    if r.status ≠ 200 then some ([], false)
    else if r.items.isEmpty then some (all_items, true)
    else if r.items.length < limit then some (all_items ++ r.items, true)
    else getOzonProductsGo limit rest (all_items ++ r.items)

def get_ozon_products (pages : List ListResponse) (limit : Nat) :
    Option (List Item × Bool) :=
  getOzonProductsGo limit pages []

/- The single response of POST /v5/product/info/prices as bot.py consumes
it: the HTTP status and the parsed body, modelled by its items list
(bot.py line 302 reads data.get("items", []) or []). -/
structure PricesResponse where
  status : Nat
  items : List Item
deriving DecidableEq, Repr

/-
get_ozon_prices from bot.py lines 160-187: a non-200 status yields the
None sentinel before touch_alive runs; a 200 status yields the body and
runs touch_alive("ozon_prices"). The Bool records whether touch_alive ran.
-/
def get_ozon_prices (r : PricesResponse) : Option (List Item) × Bool :=
  if r.status ≠ 200 then (none, false) else (some r.items, true)

/- The module-level mutable state check_prices_periodically reads and
writes: last_activity (via touch_alive), last_cycle_at, previous_prices.
Timestamps are Int seconds; the several datetime.now() calls of one
iteration are modelled as a single instant, the now field of the world. -/
structure BotState where
  last_activity : Int
  last_cycle_at : Option Int
  previous_prices : String → Option Int

/-
The external world one iteration of the poll loop interacts with.
productsRaises / pricesRaises model an exception escaping the
corresponding awaited vendor call (e.g. an aiohttp transport error):
the fetchers contain no try/except, so such an exception propagates to
the except clause of check_prices_periodically.
-/
structure CycleWorld where
  now : Int
  productsRaises : Bool
  productPages : List ListResponse
  pricesRaises : Bool
  pricesResponse : PricesResponse

/- What one iteration of the while-loop yields: the new module state, the
argument of the asyncio.sleep call ending the iteration, the change alerts
emitted, and whether the except clause logged an exception. -/
structure CycleOutcome where
  state : BotState
  sleepSeconds : Nat
  events : List (String × Int × Int)
  loggedException : Bool

/-
One iteration of check_prices_periodically, bot.py lines 283-321.
The try body: fetch products (an empty list - which a non-200 response
produces - sleeps 60 and continues), filter to the monitored subset,
fetch prices (the None sentinel sleeps 60 and continues), run the
detection loop, set last_cycle_at and touch_alive("cycle_ok"). A raised
exception is caught by the except clause, logged, and falls through to
the asyncio.sleep(300) closing the iteration - the same sleep the
successful path performs. The result is none only when the modelled
transport prefix is exhausted mid-pagination.
-/
def cycleIteration (monitorOffers : List String) (monitorProducts : List Int)
    (st : BotState) (w : CycleWorld) : Option CycleOutcome :=
  if w.productsRaises then some ⟨st, 300, [], true⟩
  else
    match get_ozon_products w.productPages 100 with
    | none => none
    | some (products0, touched) =>
      let st1 : BotState :=
        if touched then ⟨w.now, st.last_cycle_at, st.previous_prices⟩ else st
      if products0.isEmpty then some ⟨st1, 60, [], false⟩
      else
        let _products := filter_to_monitored monitorOffers monitorProducts products0
        if w.pricesRaises then some ⟨st1, 300, [], true⟩
        else
          match get_ozon_prices w.pricesResponse with
          | (none, _) => some ⟨st1, 60, [], false⟩
          | (some items, touched2) =>
            let st2 : BotState :=
              if touched2 then ⟨w.now, st1.last_cycle_at, st1.previous_prices⟩ else st1
            let ch := processItems ⟨st2.previous_prices, []⟩ items
            some ⟨⟨w.now, some w.now, ch.previous_prices⟩, 300, ch.events, false⟩

/- Outcome of bot.send_message for the heartbeat alert: delivered, or an
exception raised by the call. -/
inductive SendResult where
  | sent : SendResult
  | raised : SendResult
deriving DecidableEq, Repr

/- What one evaluation of the watcher loop body yields: the new
last_activity, whether touch_alive("heartbeat_alert") ran, and whether a
failed delivery was logged by the inner except clause. -/
structure HeartbeatOutcome where
  last_activity : Int
  alerted : Bool
  sendFailedLogged : Bool
deriving DecidableEq, Repr

/-
One evaluation of the while-loop body of heartbeat_watcher, bot.py lines
329-343. threshold is timedelta(minutes=HEARTBEAT_MINUTES) in seconds.
When silence exceeds the threshold, the send_message call runs inside its
own try/except (a raised exception is logged and swallowed), and
touch_alive("heartbeat_alert") runs after that try/except, on both the
delivered and the raised path.
-/
def heartbeatEval (now last_activity threshold : Int) (send : SendResult) :
    HeartbeatOutcome :=
  if threshold < now - last_activity then
    let logged := match send with | SendResult.raised => true | SendResult.sent => false
    ⟨now, true, logged⟩
  else ⟨last_activity, false, false⟩

/- One response of the endpoints ozon.py consumes: HTTP status, the parsed
result.items list, and result.last_id with "" for an absent or null cursor
(the "or" in line 25 of ozon.py). -/
structure OzListResponse where
  status : Nat
  items : List Item
  last_id : String
deriving DecidableEq, Repr

namespace OzonClient

/-
OzonClient.list_products from ozon.py lines 13-28. requests'
Response.raise_for_status() raises an HTTPError exactly when the status
is a 4xx or 5xx; the raised exception is modelled as Except.error carrying
the status, and it propagates to the caller because list_products has no
try/except. The outer none again means the supplied response prefix was
exhausted before the loop exited.
-/
def listProductsGo : List OzListResponse → List Item →
    Option (Except Nat (List Item))
  | [], _ => none
  | r :: rest, items =>
    if 400 ≤ r.status ∧ r.status < 600 then some (Except.error r.status)
    else if r.items.isEmpty then some (Except.ok items)
    else if r.last_id = "" then some (Except.ok (items ++ r.items))
    else listProductsGo rest (items ++ r.items)

def list_products (responses : List OzListResponse) :
    Option (Except Nat (List Item)) :=
  listProductsGo responses []

end OzonClient

/- Concrete inputs used by witnesses and counterexamples. -/

def emptyPrices : String → Option Int := fun _ => none

def offerA : String := "A"

/- A price item as in the end-to-end scenario of the spec: a marketing
price, a regular price and a reference price, all integer. -/
def itemMRO (m r o : Int) : Item :=
  ⟨some offerA, none, some ⟨RawVal.vint m, RawVal.vint r, RawVal.vint o⟩⟩

/- A price item carrying only a marketing price. -/
def obsItem (q : Int) : Item :=
  ⟨some offerA, none, some ⟨RawVal.vint q, RawVal.vnone, RawVal.vnone⟩⟩

/- A price record with the whole price block absent: both the marketing
and the regular price parse to 0. -/
def itemZero : Item := ⟨some offerA, none, none⟩

/- Helper lemmas about the normalizer. -/

lemma pick_fst_pos (it : Item)
    (h : 0 < _to_int (priceBlockOf it).marketing_price) :
    (pick_buyer_price it).1 = _to_int (priceBlockOf it).marketing_price := by
  simp [pick_buyer_price, h]

lemma pick_fst_nonpos (it : Item)
    (h : _to_int (priceBlockOf it).marketing_price ≤ 0) :
    (pick_buyer_price it).1 = _to_int (priceBlockOf it).price := by
  have h2 : ¬ 0 < _to_int (priceBlockOf it).marketing_price := by omega
  simp [pick_buyer_price, h2]

/- The discount-percent component of pick_buyer_price, spelled out; the
equation holds by unfolding the let-bindings of the definition. -/
lemma pick_pct_eq (it : Item) :
    (pick_buyer_price it).2.2 =
      (if _to_int (priceBlockOf it).old_price ≠ 0 then
        roundDivHalfEven
          ((if _to_int (priceBlockOf it).old_price ≠ 0 ∧ (pick_buyer_price it).1 ≠ 0
            then max (_to_int (priceBlockOf it).old_price - (pick_buyer_price it).1) 0
            else 0) * 100)
          (_to_int (priceBlockOf it).old_price)
       else 0) := rfl

/- Rounding a quotient of nonnegative value at most 100 stays in
[0, 100]. -/
lemma roundDivHalfEven_bounds (a b : Int) (ha : 0 ≤ a) (hb : 0 < b)
    (hab : a ≤ 100 * b) :
    0 ≤ roundDivHalfEven a b ∧ roundDivHalfEven a b ≤ 100 := by
  have hbneg : ¬ b < 0 := by omega
  have hid : b * (Int.fdiv a b) + Int.fmod a b = a := Int.fdiv_add_fmod a b
  have hr0 : 0 ≤ Int.fmod a b := Int.fmod_nonneg' a hb
  have hf0 : 0 ≤ Int.fdiv a b := Int.fdiv_nonneg ha hb.le
  have hf100 : Int.fdiv a b ≤ 100 := by
    by_contra hc
    push_neg at hc
    have h1 : b * 101 ≤ b * Int.fdiv a b :=
      mul_le_mul_of_nonneg_left (by omega) hb.le
    linarith
  simp only [roundDivHalfEven, if_neg hbneg]
  split_ifs with h1 h2 h3
  · exact ⟨hf0, hf100⟩
  · refine ⟨by omega, ?_⟩
    rw [not_lt] at h1
    by_contra hc
    push_neg at hc
    have hf : 100 ≤ Int.fdiv a b := by omega
    have h4 : b * 100 ≤ b * Int.fdiv a b :=
      mul_le_mul_of_nonneg_left hf hb.le
    linarith
  · exact ⟨hf0, hf100⟩
  · refine ⟨by omega, ?_⟩
    rw [not_lt] at h1
    by_contra hc
    push_neg at hc
    have hf : 100 ≤ Int.fdiv a b := by omega
    have h4 : b * 100 ≤ b * Int.fdiv a b :=
      mul_le_mul_of_nonneg_left hf hb.le
    linarith

/- Rounding the quotient 0 / b gives 0 for any nonzero divisor. -/
lemma roundDivHalfEven_zero (b : Int) (hb : b ≠ 0) :
    roundDivHalfEven 0 b = 0 := by
  rcases lt_or_gt_of_ne hb with h | h
  · have h2 : (0 : Int) < -b := by omega
    simp [roundDivHalfEven, h, Int.zero_fdiv, Int.zero_fmod, h2]
  · have h2 : ¬ b < 0 := by omega
    simp [roundDivHalfEven, h2, Int.zero_fdiv, Int.zero_fmod, h]

/- The discount-percent expression of bot.py lines 59-60, over arbitrary
parsed integers: bounded within [0, 100] when the buyer price is
nonnegative and at most the reference price. -/
lemma discount_pct_core_bounds (price o : Int) (h1 : 0 ≤ price)
    (h2 : price ≤ o) :
    0 ≤ (if o ≠ 0 then
          roundDivHalfEven
            ((if o ≠ 0 ∧ price ≠ 0 then max (o - price) 0 else 0) * 100) o
         else 0)
    ∧ (if o ≠ 0 then
        roundDivHalfEven
          ((if o ≠ 0 ∧ price ≠ 0 then max (o - price) 0 else 0) * 100) o
       else 0) ≤ 100 := by
  by_cases ho : o = 0
  · simp [ho]
  · have hopos : 0 < o := by omega
    by_cases hp : price = 0
    · have hc : ¬ (o ≠ 0 ∧ price ≠ 0) := by tauto
      simp only [if_pos ho, if_neg hc, zero_mul]
      exact roundDivHalfEven_bounds 0 o le_rfl hopos (by omega)
    · have hc : o ≠ 0 ∧ price ≠ 0 := ⟨ho, hp⟩
      have hmax : max (o - price) 0 = o - price := max_eq_left (by omega)
      simp only [if_pos ho, if_pos hc, hmax]
      exact roundDivHalfEven_bounds ((o - price) * 100) o (by nlinarith)
        hopos (by nlinarith)

/- The discount-percent expression evaluates to 0 whenever the reference
price is non-positive and the buyer price is nonnegative. -/
lemma discount_pct_core_zero (price o : Int) (h1 : o ≤ 0) (h2 : 0 ≤ price) :
    (if o ≠ 0 then
      roundDivHalfEven
        ((if o ≠ 0 ∧ price ≠ 0 then max (o - price) 0 else 0) * 100) o
     else 0) = 0 := by
  by_cases ho : o = 0
  · simp [ho]
  · have honeg : o < 0 := by omega
    by_cases hp : price = 0
    · have hc : ¬ (o ≠ 0 ∧ price ≠ 0) := by tauto
      simp only [if_pos ho, if_neg hc, zero_mul]
      exact roundDivHalfEven_zero o ho
    · have hc : o ≠ 0 ∧ price ≠ 0 := ⟨ho, hp⟩
      have hmax : max (o - price) 0 = 0 := max_eq_right (by omega)
      simp only [if_pos ho, if_pos hc, hmax, zero_mul]
      exact roundDivHalfEven_zero o ho

/- Helper lemmas about the chunker. -/

lemma concatAll_snoc (xs : List String) (s : String) :
    concatAll (xs ++ [s]) = concatAll xs ++ s := by
  induction xs with
  | nil => simp [concatAll, String.empty_append, String.append_empty]
  | cons x xs ih => simp [concatAll, ih, String.append_assoc]

/- Concatenating the output of the chunker loop reproduces the already
flushed blocks, the buffer, and every remaining line with its appended
newline, in order. -/
lemma chunksGo_concat (maxLen : Nat) (lines : List String) :
    ∀ (blocks : List String) (cur : String),
      concatAll (chunksGo maxLen lines blocks cur) =
        concatAll blocks ++ cur ++ concatAll (lines.map (fun l => l ++ nl)) := by
  induction lines with
  | nil =>
    intro blocks cur
    simp only [chunksGo, List.map_nil, concatAll]
    split_ifs with h
    · rw [h, String.append_empty, String.append_empty]
    · rw [concatAll_snoc, String.append_empty]
  | cons line rest ih =>
    intro blocks cur
    simp only [chunksGo, List.map_cons, concatAll]
    split_ifs with h
    · rw [ih, concatAll_snoc]
      simp [String.append_assoc]
    · rw [ih]
      simp [String.append_assoc]

/- Every block produced by the chunker loop stays within the limit,
provided every remaining line fits, every flushed block fits, and the
buffer fits. -/
lemma chunksGo_len (maxLen : Nat) (lines : List String) :
    ∀ (blocks : List String) (cur : String),
      (∀ l ∈ lines, l.length + 1 ≤ maxLen) →
      (∀ b ∈ blocks, b.length ≤ maxLen) →
      cur.length ≤ maxLen →
      ∀ b ∈ chunksGo maxLen lines blocks cur, b.length ≤ maxLen := by
  induction lines with
  | nil =>
    intro blocks cur _ hb hc b hmem
    simp only [chunksGo] at hmem
    split_ifs at hmem with h
    · exact hb b hmem
    · rcases List.mem_append.mp hmem with h2 | h2
      · exact hb b h2
      · rw [List.mem_singleton.mp h2]
        exact hc
  | cons line rest ih =>
    intro blocks cur hl hb hc
    have hline : line.length + 1 ≤ maxLen := hl line (List.mem_cons_self line rest)
    have hrest : ∀ l ∈ rest, l.length + 1 ≤ maxLen :=
      fun l h2 => hl l (List.mem_cons_of_mem line h2)
    simp only [chunksGo]
    split_ifs with h
    · apply ih (blocks ++ [cur]) (line ++ nl) hrest
      · intro b hbm
        rcases List.mem_append.mp hbm with h2 | h2
        · exact hb b h2
        · rw [List.mem_singleton.mp h2]
          exact hc
      · rw [String.length_append]
        have : nl.length = 1 := rfl
        omega
    · apply ih blocks (cur ++ (line ++ nl)) hrest hb
      rw [String.length_append, String.length_append]
      have : nl.length = 1 := rfl
      omega

/- The paginated product fetch returns the empty list without touching the
heartbeat as soon as any page of the pagination loop has a non-200
status, whatever has been accumulated so far. -/
lemma getOzonProductsGo_non200 (limit : Nat) (r : ListResponse)
    (rest : List ListResponse) (acc : List Item) (h : r.status ≠ 200) :
    getOzonProductsGo limit (r :: rest) acc = some ([], false) := by
  simp [getOzonProductsGo, h]

/-
Claim theorems.
-/

/-- C6: for every raw price record, the Normalizer returns buyer_price
equal to the parsed marketing price whenever that parse is strictly
positive, regardless of the regular price; otherwise buyer_price equals
the parsed regular price (which is 0 when the field is absent or
unparseable, by definition of the parser). -/
theorem C6_buyer_price_selection (it : Item) :
    (0 < _to_int (priceBlockOf it).marketing_price →
      (pick_buyer_price it).1 = _to_int (priceBlockOf it).marketing_price)
    ∧ (_to_int (priceBlockOf it).marketing_price ≤ 0 →
      (pick_buyer_price it).1 = _to_int (priceBlockOf it).price)
    ∧ (_to_int RawVal.vnone = 0) :=
  ⟨pick_fst_pos it, pick_fst_nonpos it, rfl⟩

/-- Witness for C6 at a record with marketing price 90, regular price 100,
reference price 150: the buyer price is the marketing price. -/
theorem C6_buyer_price_selection_witness :
    0 < _to_int (priceBlockOf (itemMRO 90 100 150)).marketing_price
    ∧ (pick_buyer_price (itemMRO 90 100 150)).1 =
        _to_int (priceBlockOf (itemMRO 90 100 150)).marketing_price :=
  ⟨by decide, (C6_buyer_price_selection (itemMRO 90 100 150)).1 (by decide)⟩

/-- C7 counterexample: the claim asserts discount_percent is 0 whenever
the parsed old_price is non-positive; at a record parsing to marketing
price 0, regular price -10, old_price -5, the code yields buyer price
-10 and discount_percent -100, not 0 (discount = max(-5 - (-10), 0) = 5,
and round(500 / -5) = -100). -/
theorem C7_counterexample :
    _to_int (priceBlockOf (itemMRO 0 (-10) (-5))).old_price = -5
    ∧ pick_buyer_price (itemMRO 0 (-10) (-5)) = (-10, -5, -100) := by
  constructor
  · decide
  · decide

/-- C7 as amended: for every record whose parsed old_price and buyer_price
are nonnegative with old_price at least the buyer price, discount_percent
lies in [0, 100]; and discount_percent is 0 whenever the parsed old_price
is non-positive, provided the buyer price is nonnegative (with a negative
buyer price and a negative old_price the percentage can be negative, as
the counterexample shows). -/
theorem C7_discount_percent_bounds (it : Item) :
    (0 ≤ (pick_buyer_price it).1 →
      0 ≤ _to_int (priceBlockOf it).old_price →
      (pick_buyer_price it).1 ≤ _to_int (priceBlockOf it).old_price →
      0 ≤ (pick_buyer_price it).2.2 ∧ (pick_buyer_price it).2.2 ≤ 100)
    ∧ (_to_int (priceBlockOf it).old_price ≤ 0 →
      0 ≤ (pick_buyer_price it).1 →
      (pick_buyer_price it).2.2 = 0) := by
  constructor
  · intro h1 _ h3
    rw [pick_pct_eq]
    exact discount_pct_core_bounds _ _ h1 h3
  · intro h1 h2
    rw [pick_pct_eq]
    exact discount_pct_core_zero _ _ h1 h2

/-- Witness for C7 at the record (marketing 90, regular 100, old 150):
buyer price 90 is nonnegative and at most 150, and the discount percent
lies in [0, 100]. -/
theorem C7_discount_percent_bounds_witness :
    0 ≤ (pick_buyer_price (itemMRO 90 100 150)).2.2
    ∧ (pick_buyer_price (itemMRO 90 100 150)).2.2 ≤ 100 :=
  (C7_discount_percent_bounds (itemMRO 90 100 150)).1 (by decide) (by decide)
    (by decide)

/-- C8: the heartbeat status function returns OK when the silence is at
most the threshold, WARN when it is above the threshold but at most twice
the threshold, and SILENT beyond twice the threshold. The configured
threshold (HEARTBEAT_MINUTES) is assumed nonnegative; with a negative
threshold the three cases of the claim would overlap. -/
theorem C8_heartbeat_status (now la T : Int) (lc : Option Int) (hT : 0 ≤ T) :
    (now - la ≤ T * 60 → (human_health now la T lc).1 = "OK")
    ∧ (T * 60 < now - la → now - la ≤ 2 * (T * 60) →
        (human_health now la T lc).1 = "WARN")
    ∧ (2 * (T * 60) < now - la → (human_health now la T lc).1 = "SILENT") := by
  refine ⟨?_, ?_, ?_⟩
  · intro h
    simp only [human_health]
    rw [if_pos h]
  · intro h1 h2
    simp only [human_health]
    rw [if_neg (by omega), if_pos (by omega)]
  · intro h
    simp only [human_health]
    rw [if_neg (by omega), if_neg (by omega)]

/-- Witness for C8 at now = 100, last_activity = 0, threshold 1 minute:
the silence of 100 seconds lies in (60, 120], and the status is WARN. -/
theorem C8_heartbeat_status_witness :
    (0 : Int) ≤ 1 ∧ (human_health 100 0 1 none).1 = "WARN" :=
  ⟨by decide, (C8_heartbeat_status 100 0 1 none (by decide)).2.1 (by decide)
    (by decide)⟩

/-- C10: whenever the silence threshold is exceeded, the heartbeat watcher
resets last_activity to the current time even when the send_message call
raises: touch_alive runs after the inner try/except, so alert throttling
does not depend on delivery success. -/
theorem C10_touch_despite_send_failure (now la T : Int) (h : T < now - la) :
    (heartbeatEval now la T SendResult.raised).last_activity = now
    ∧ (heartbeatEval now la T SendResult.raised).alerted = true
    ∧ (heartbeatEval now la T SendResult.raised).last_activity =
        (heartbeatEval now la T SendResult.sent).last_activity := by
  simp [heartbeatEval, if_pos h]

/-- Witness for C10 at now = 1000, last_activity = 0, threshold 600: the
silence 1000 exceeds the threshold and a failed send still resets
last_activity to 1000. -/
theorem C10_touch_despite_send_failure_witness :
    (heartbeatEval 1000 0 600 SendResult.raised).last_activity = 1000
    ∧ (heartbeatEval 1000 0 600 SendResult.raised).alerted = true
    ∧ (heartbeatEval 1000 0 600 SendResult.raised).last_activity =
        (heartbeatEval 1000 0 600 SendResult.sent).last_activity :=
  C10_touch_despite_send_failure 1000 0 600 (by decide)

/- Three successive poll cycles each observing the same single offer with
buyer prices 100, 100 and 120: the event list of each cycle starts
empty, the price cache carries over. -/

def cycA : ChangeState := processItems ⟨emptyPrices, []⟩ [obsItem 100]

def cycB : ChangeState := processItems ⟨cycA.previous_prices, []⟩ [obsItem 100]

def cycC : ChangeState := processItems ⟨cycB.previous_prices, []⟩ [obsItem 120]

/-- C2: for every offer observed in a poll cycle with prior price p and
fresh price q, a change event (p, q) is emitted iff p differs from q
(strict integer inequality), and the stored price afterwards is q; with
no prior state the price is stored and no event is emitted; and the
sequential observations 100, 100, 120 of one offer across three cycles
emit exactly one event, (100, 120). -/
theorem C2_change_detector :
    (∀ (st : ChangeState) (it : Item) (p : Int),
      st.previous_prices (offerKey it) = some p →
      ((processItem st it).events =
          st.events ++ [(offerKey it, p, (pick_buyer_price it).1)]
        ↔ p ≠ (pick_buyer_price it).1)
      ∧ (p = (pick_buyer_price it).1 → (processItem st it).events = st.events)
      ∧ (processItem st it).previous_prices (offerKey it) =
          some (pick_buyer_price it).1)
    ∧ (∀ (st : ChangeState) (it : Item),
      st.previous_prices (offerKey it) = none →
      (processItem st it).events = st.events
      ∧ (processItem st it).previous_prices (offerKey it) =
          some (pick_buyer_price it).1)
    ∧ (cycA.events = [] ∧ cycB.events = []
      ∧ cycC.events = [(offerA, 100, 120)]) := by
  refine ⟨?_, ?_, by decide, by decide, by decide⟩
  · intro st it p h
    refine ⟨?_, ?_, ?_⟩
    · simp only [processItem, h]
      by_cases hne : p ≠ (pick_buyer_price it).1
      · simp [hne]
      · simp [hne]
    · intro he
      simp [processItem, h, he]
    · simp [processItem, dictSet]
  · intro st it h
    exact ⟨by simp [processItem, h], by simp [processItem, dictSet]⟩

/-- Witness for C2: on the first observation of offer A at price 100
starting from an empty cache, no event is emitted and 100 is stored. -/
theorem C2_change_detector_witness :
    (processItem ⟨emptyPrices, []⟩ (obsItem 100)).events =
      (ChangeState.mk emptyPrices []).events
    ∧ (processItem ⟨emptyPrices, []⟩ (obsItem 100)).previous_prices
        (offerKey (obsItem 100)) = some (pick_buyer_price (obsItem 100)).1 :=
  C2_change_detector.2.1 ⟨emptyPrices, []⟩ (obsItem 100) rfl

/- Cache holding a prior price of 100 for offer A, as after a first
cycle observed the offer at 100. -/
def stPrior100 : ChangeState := ⟨dictSet emptyPrices offerA 100, []⟩

/-- C1 counterexample: a record whose price block is absent (both the
marketing and the regular price parse to 0) is not excluded from change
detection: with prior price 100 for its offer, the cycle stores the 0
price and emits the change event (100, 0). -/
theorem C1_counterexample :
    (processItem stPrior100 itemZero).previous_prices offerA = some 0
    ∧ (processItem stPrior100 itemZero).events = [(offerA, 100, 0)] := by
  constructor
  · decide
  · decide

/-- C1 as amended: a price record whose parsed marketing and regular
prices are both non-positive normalizes to a buyer price equal to the
parsed regular price (0 when both fields are absent), and it is not
excluded from change detection: the poll cycle stores that price for the
offer, and emits a change event from any differing prior price,
including events from a nonzero price to 0. -/
theorem C1_zero_price_not_excluded (st : ChangeState) (it : Item)
    (hm : _to_int (priceBlockOf it).marketing_price ≤ 0)
    (_hr : _to_int (priceBlockOf it).price ≤ 0) :
    (pick_buyer_price it).1 = _to_int (priceBlockOf it).price
    ∧ (processItem st it).previous_prices (offerKey it) =
        some (_to_int (priceBlockOf it).price)
    ∧ (∀ p, st.previous_prices (offerKey it) = some p →
        p ≠ _to_int (priceBlockOf it).price →
        (processItem st it).events =
          st.events ++ [(offerKey it, p, _to_int (priceBlockOf it).price)]) := by
  have hfst := pick_fst_nonpos it hm
  refine ⟨hfst, ?_, ?_⟩
  · simp [processItem, dictSet, hfst]
  · intro p hp hne
    simp [processItem, hp, hfst, hne]

/-- Witness for C1 as amended, at the all-absent record with prior price
100: the 0 price is stored and the event (A, 100, 0) is emitted. -/
theorem C1_zero_price_not_excluded_witness :
    (processItem stPrior100 itemZero).previous_prices (offerKey itemZero) =
      some (_to_int (priceBlockOf itemZero).price)
    ∧ (processItem stPrior100 itemZero).events =
        stPrior100.events ++
          [(offerKey itemZero, 100, _to_int (priceBlockOf itemZero).price)] :=
  ⟨(C1_zero_price_not_excluded stPrior100 itemZero (by decide) (by decide)).2.1,
   (C1_zero_price_not_excluded stPrior100 itemZero (by decide) (by decide)).2.2
     100 (by decide) (by decide)⟩

/- Concrete failing responses and worlds. -/

def page500 : ListResponse := ⟨500, []⟩

def prices500 : PricesResponse := ⟨500, []⟩

def oz500 : OzListResponse := ⟨500, [], ""⟩

def stBot : BotState := ⟨5, none, emptyPrices⟩

/- A world where the awaited product fetch raises a transport
exception. -/
def wRaise : CycleWorld := ⟨1000, true, [], false, ⟨200, []⟩⟩

/- A world where the product-list endpoint answers with a 500 status. -/
def w500 : CycleWorld := ⟨1000, false, [page500], false, ⟨200, []⟩⟩

/-- C3 counterexample: the claim says a non-200 vendor response is never
surfaced as an exception; but OzonClient.list_products in ozon.py calls
raise_for_status, so a 500 response makes the HTTPError (modelled as
Except.error with the status) propagate to the caller. -/
theorem C3_counterexample :
    OzonClient.list_products [oz500] = some (Except.error 500) := rfl

/-- C3 as amended: in bot.py, a non-200 response at any page of the
product fetch yields the empty list and a non-200 price response yields
the None sentinel, neither raising; but OzonClient.list_products in
ozon.py propagates an exception (raise_for_status) on any 4xx or 5xx
response instead of returning an empty result. -/
theorem C3_non200_surfacing :
    (∀ (limit : Nat) (r : ListResponse) (rest : List ListResponse)
        (acc : List Item), r.status ≠ 200 →
      getOzonProductsGo limit (r :: rest) acc = some ([], false))
    ∧ (∀ pr : PricesResponse, pr.status ≠ 200 →
        get_ozon_prices pr = (none, false))
    ∧ (∀ (r : OzListResponse) (rest : List OzListResponse) (acc : List Item),
        400 ≤ r.status → r.status < 600 →
        OzonClient.listProductsGo (r :: rest) acc =
          some (Except.error r.status)) := by
  refine ⟨?_, ?_, ?_⟩
  · intro limit r rest acc h
    exact getOzonProductsGo_non200 limit r rest acc h
  · intro pr h
    simp [get_ozon_prices, h]
  · intro r rest acc h1 h2
    simp [OzonClient.listProductsGo, h1, h2]

/-- Witness for C3 as amended, at concrete 500 responses for all three
fetchers. -/
theorem C3_non200_surfacing_witness :
    getOzonProductsGo 100 [page500] [] = some ([], false)
    ∧ get_ozon_prices prices500 = (none, false)
    ∧ OzonClient.listProductsGo [oz500] [] = some (Except.error oz500.status) :=
  ⟨C3_non200_surfacing.1 100 page500 [] [] (by decide),
   C3_non200_surfacing.2.1 prices500 (by decide),
   C3_non200_surfacing.2.2 oz500 [] [] (by decide) (by decide)⟩

/-- C4 counterexample: the claim says an exception inside the cycle body
makes the loop continue after the shorter 60-second backoff; but the
except clause of check_prices_periodically falls through to the
asyncio.sleep(300) closing the iteration, so a raised product fetch
sleeps 300 seconds, not 60. -/
theorem C4_counterexample :
    (cycleIteration [] [] stBot wRaise).map (fun o => o.sleepSeconds) =
      some 300
    ∧ (cycleIteration [] [] stBot wRaise).map (fun o => o.sleepSeconds) ≠
      some 60 := by
  constructor
  · decide
  · decide

/-- C4 as amended: any exception raised inside the body of a poll cycle
is caught and logged, the state mutated so far is kept, and the loop
continues after the full 300-second interval sleep; the 60-second backoff
applies only to the short-circuits where a fetch returns an empty list or
the None sentinel without raising. -/
theorem C4_exception_sleeps_full_interval (mo : List String) (mp : List Int)
    (st : BotState) (w : CycleWorld) :
    (w.productsRaises = true →
      cycleIteration mo mp st w = some ⟨st, 300, [], true⟩)
    ∧ (w.productsRaises = false → w.pricesRaises = true →
      ∀ items, get_ozon_products w.productPages 100 = some (items, true) →
      items.isEmpty = false →
      cycleIteration mo mp st w =
        some ⟨⟨w.now, st.last_cycle_at, st.previous_prices⟩, 300, [], true⟩) := by
  constructor
  · intro h
    simp [cycleIteration, h]
  · intro h1 h2 items hget hne
    simp [cycleIteration, h1, h2, hget, hne]

/-- Witness for C4 as amended: a raised product fetch leaves the state
unchanged and ends the iteration with the 300-second sleep. -/
theorem C4_exception_sleeps_full_interval_witness :
    cycleIteration [] [] stBot wRaise = some ⟨stBot, 300, [], true⟩ :=
  (C4_exception_sleeps_full_interval [] [] stBot wRaise).1 rfl

/-- C9: when the product-list endpoint answers a poll cycle with a
non-200 status, the iteration returns the unchanged state - in
particular last_activity and last_cycle_at are untouched - and sleeps
the short 60-second backoff, so silence detection can eventually fire. -/
theorem C9_non200_keeps_heartbeat (mo : List String) (mp : List Int)
    (st : BotState) (w : CycleWorld) (r : ListResponse)
    (rest : List ListResponse) (h1 : w.productsRaises = false)
    (h2 : w.productPages = r :: rest) (h3 : r.status ≠ 200) :
    cycleIteration mo mp st w = some ⟨st, 60, [], false⟩
    ∧ (cycleIteration mo mp st w).map (fun o => o.state.last_activity) =
        some st.last_activity
    ∧ (cycleIteration mo mp st w).map (fun o => o.state.last_cycle_at) =
        some st.last_cycle_at := by
  have hmain : cycleIteration mo mp st w = some ⟨st, 60, [], false⟩ := by
    have hget : get_ozon_products w.productPages 100 = some ([], false) := by
      rw [h2]
      exact getOzonProductsGo_non200 100 r rest [] h3
    simp [cycleIteration, h1, hget]
  refine ⟨hmain, ?_, ?_⟩
  · rw [hmain]
    rfl
  · rw [hmain]
    rfl

/-- Witness for C9: with a single 500 product-list response, the cycle
returns the state unchanged and sleeps 60 seconds. -/
theorem C9_non200_keeps_heartbeat_witness :
    cycleIteration [] [] stBot w500 = some ⟨stBot, 60, [], false⟩ :=
  (C9_non200_keeps_heartbeat [] [] stBot w500 page500 [] rfl rfl
    (by decide)).1

/- A single line of exactly 4000 characters. -/
def bigLine : String := String.mk (List.replicate 4000 (Char.ofNat 97))

/- Two short lines for the chunker witness. -/
def demoLines : List String := [String.mk [Char.ofNat 97], String.mk [Char.ofNat 98, Char.ofNat 98]]

/-- C5 counterexample: the claim says no chunk exceeds the 4000-character
limit for every input; but on a single line of 4000 characters the
chunker first flushes the empty buffer and then emits the chunk
consisting of that line plus its appended newline, 4001 characters. -/
theorem C5_counterexample :
    chunks [bigLine] 4000 = ["", bigLine ++ nl]
    ∧ 4000 < (bigLine ++ nl).length := by
  have hlen : bigLine.length = 4000 := by
    rw [bigLine, String.length_mk, List.length_replicate]
  have hlen2 : (bigLine ++ nl).length = 4001 := by
    rw [String.length_append, hlen]
    rfl
  constructor
  · have hcond : ("" : String).length + bigLine.length + 1 > 4000 := by
      rw [String.length_empty, hlen]
      omega
    have hne : ¬ (bigLine ++ nl) = "" := by
      intro h
      have h2 : (bigLine ++ nl).length = ("" : String).length := by rw [h]
      rw [hlen2, String.length_empty] at h2
      exact absurd h2 (by omega)
    simp only [chunks, chunksGo]
    rw [if_pos hcond, if_neg hne]
    rfl
  · rw [hlen2]
    omega

/-- C5 as amended: for every input list of lines each of length at most
3999 (so a line and its newline fit within the 4000-character limit), no
produced chunk exceeds 4000 characters; and unconditionally the
concatenation of all chunks equals the concatenation of the lines each
followed by the newline the chunker adds, so the original line sequence
is reproduced in order. -/
theorem C5_chunker (lines : List String) :
    ((∀ l ∈ lines, l.length + 1 ≤ 4000) →
      ∀ b ∈ chunks lines 4000, b.length ≤ 4000)
    ∧ concatAll (chunks lines 4000) =
        concatAll (lines.map (fun l => l ++ nl)) := by
  constructor
  · intro h
    exact chunksGo_len 4000 lines [] "" h (by intro b hb; simp at hb)
      (by rw [String.length_empty]; omega)
  · have h := chunksGo_concat 4000 lines [] ""
    rw [chunks, h, concatAll, String.empty_append, String.empty_append]

/-- Witness for C5 as amended at the two lines a and bb: both fit, every
chunk is within the limit, and concatenation reproduces the lines. -/
theorem C5_chunker_witness :
    (∀ b ∈ chunks demoLines 4000, b.length ≤ 4000)
    ∧ concatAll (chunks demoLines 4000) =
        concatAll (demoLines.map (fun l => l ++ nl)) :=
  ⟨(C5_chunker demoLines).1 (by decide), (C5_chunker demoLines).2⟩
example : pick_buyer_price ⟨none, none, some ⟨RawVal.vint 90, RawVal.vint 100, RawVal.vint 150⟩⟩ = (90, 150, 40) := by decide
example : pick_buyer_price ⟨none, none, some ⟨RawVal.vint 0, RawVal.vint (-10), RawVal.vint (-5)⟩⟩ = (-10, -5, -100) := by decide
